import Mathlib

/-!
Verification of the assembly-engine pipeline (indexer, intersection
retriever, deterministic assembler, constrained assembler bridge).

Strings are modelled as `List Char`; Python's substring test `a in b`
is modelled as list infix (`<:+:`), decided by `decide`.  The external
language model and the external CPython `compile` check are modelled as
parameters (an abstract outcome value and a `Str → Bool` oracle); all
repository code is translated into executable definitions below.
-/

set_option maxRecDepth 100000

namespace AssemblyEngine

abbrev Str := List Char

/-- Python `needle in hay` on strings (substring containment). -/
def containsSub (needle hay : Str) : Bool := decide (needle <:+: hay)

/-- Character-wise lowercasing, modelling `str.lower()` (ASCII range). -/
def lowerStr (s : Str) : Str := s.map Char.toLower

/-- A word character for the regex `\w` (ASCII approximation). -/
def isWordChar (c : Char) : Bool := c.isAlphanum || c = '_'

/-- Fuel-driven scanner behind `runsBy` (structural recursion so that
concrete evaluation reduces in the kernel; the fuel is the string
length, which bounds the number of consumed characters). -/
def runsByGo (p : Char → Bool) : Nat → Str → List Str
  | 0, _ => []
  | _, [] => []
  | fuel + 1, c :: rest =>
    if p c then (c :: rest.takeWhile p) :: runsByGo p fuel (rest.dropWhile p)
    else runsByGo p fuel rest

/-- Maximal runs of characters satisfying `p`, in order: models
`re.findall` with a one-character-class pattern such as `\w+` or `\d+`. -/
def runsBy (p : Char → Bool) (s : Str) : List Str := runsByGo p s.length s

/-- Function signature as stored by the indexer:
`{"params": [...], "returns": None}`. -/
structure Sig where
  params : List Str
  returns : Option Str
deriving DecidableEq

/-- An on-disk index value: either the legacy bare source string or the
structured dict (whose keys may individually be missing, read with
`.get` defaults in `IntersectionEngine.search`). -/
inductive IndexEntry where
  | legacy (source : Str)
  | structured (source : Option Str) (filename : Option Str) (signature : Option Sig)
deriving DecidableEq

/-- `chunk_data.get("source", "")` resp. the bare legacy string. -/
def entrySource : IndexEntry → Str
  | .legacy s => s
  | .structured s _ _ => s.getD []

/-- `chunk_data.get("filename", "unknown")`; legacy entries get `"unknown"`. -/
def entryFilename : IndexEntry → Str
  | .legacy _ => ("unknown").data
  | .structured _ f _ => f.getD (("unknown").data)

/-- `chunk_data.get("signature", {"params": [], "returns": None})`. -/
def entrySignature : IndexEntry → Sig
  | .legacy _ => ⟨[], none⟩
  | .structured _ _ g => g.getD ⟨[], none⟩

/-- A retrieved chunk, as appended to `final_results` in `search`. -/
structure Chunk where
  source : Str
  filename : Str
  func_name : Str
  signature : Sig
deriving DecidableEq

def chunkOfEntry (name : Str) (e : IndexEntry) : Chunk :=
  ⟨entrySource e, entryFilename e, name, entrySignature e⟩

/-- `tokens = set(re.findall(r'\w+', query))` followed by
`[t for t in tokens if len(t) > 3]` (the set realised as an order-keeping
deduplicated list; only conjunctive membership is observed downstream). -/
def targetTokens (q : Str) : List Str :=
  ((runsBy isWordChar q).dedup).filter (fun t => 3 < t.length)

/-- The per-entry conjunctive test of `IntersectionEngine.search`:
every token, lowercased, occurs in the lowercased source or the
lowercased function name. -/
def matchesAll (toks : List Str) (name src : Str) : Bool :=
  toks.all (fun t =>
    containsSub (lowerStr t) (lowerStr src) || containsSub (lowerStr t) (lowerStr name))

/-- `IntersectionEngine.search` (retriever.py lines 22-116): tokenise,
drop short tokens, return `None` on an empty token set, else collect the
chunks matching all tokens in index iteration order, `None` if none match. -/
def search (index : List (Str × IndexEntry)) (q : Str) : Option (List Chunk) :=
  let target := targetTokens q
  if target.isEmpty then none
  else
    let results := index.filterMap (fun p =>
      if matchesAll target p.1 (entrySource p.2) then some (chunkOfEntry p.1 p.2) else none)
    if results.isEmpty then none else some results

/-- Modelled from the claim wording (refinement side): the salient token
set of a query — case-folded word-character runs with tokens of length
at most 3 dropped. -/
def salientTokenSet (q : Str) : List Str := (targetTokens q).map lowerStr

/-- Modelled from the claim wording (refinement side): accept a chunk iff
every already-case-folded salient token occurs in the case-folded source
or function name. -/
def chunkAccepted (salient : List Str) (name src : Str) : Bool :=
  salient.all (fun t => containsSub t (lowerStr src) || containsSub t (lowerStr name))

/-- Modelled from the claim wording (refinement side): null when the
salient set is empty, otherwise exactly the accepted chunks in index
iteration order, null when none qualifies. -/
def searchSpec (index : List (Str × IndexEntry)) (q : Str) : Option (List Chunk) :=
  let salient := salientTokenSet q
  if salient.isEmpty then none
  else
    let results := index.filterMap (fun p =>
      if chunkAccepted salient p.1 (entrySource p.2) then some (chunkOfEntry p.1 p.2) else none)
    if results.isEmpty then none else some results

/-! ### Indexer (indexer.py) -/

/-- A child of the `parameters` node, as classified by `parse_file`
(lines 101-116): a plain identifier, a typed parameter, a default
parameter (each carrying its resolved `name` field and first child, as
used by `child_by_field_name("name") or child.children[0]`), or
punctuation. -/
inductive ParamChild where
  | identifier (name : Str)
  | typedParam (nameField : Option Str) (firstChild : Option Str)
  | defaultParam (nameField : Option Str) (firstChild : Option Str)
  | punct
deriving DecidableEq

/-- The name appended for one parameter child, if any. -/
def paramName : ParamChild → Option Str
  | .identifier n => some n
  | .typedParam nf fc => nf.orElse (fun _ => fc)
  | .defaultParam nf fc => nf.orElse (fun _ => fc)
  | .punct => none

/-- The `signature["params"]` list built by `parse_file`: parameter names
appended in child order; note no `self` stripping happens here. -/
def extractParams (children : List ParamChild) : List Str :=
  children.filterMap paramName

/-- A captured function/class definition node: its byte-slice source,
its `name` field, and the children of its `parameters` field. -/
structure DefNode where
  source : Str
  name : Str
  paramChildren : List ParamChild
deriving DecidableEq

/-- The value stored at `self.index[func_name]` (indexer.py lines
122-126): source, filename and signature only. -/
structure StoredEntry where
  source : Str
  filename : Str
  signature : Sig
deriving DecidableEq

/-- The keys of the dict literal stored in the index (lines 122-126). -/
def storedEntryKeys : List Str := [("source").data, ("filename").data, ("signature").data]

/-- The entry `parse_file` stores for a captured definition node. -/
def indexEntryOfNode (currentFile : Str) (n : DefNode) : StoredEntry :=
  ⟨n.source, currentFile, ⟨extractParams n.paramChildren, none⟩⟩

/-! ### SHA-256 (modelling `hashlib.sha256(...).hexdigest()`) -/

def w32 (n : Nat) : Nat := n % 4294967296

def rotr32 (n x : Nat) : Nat := w32 (x / 2 ^ n + x % 2 ^ n * 2 ^ (32 - n))

def shr32 (n x : Nat) : Nat := x / 2 ^ n

def bsig0 (x : Nat) : Nat := rotr32 2 x ^^^ rotr32 13 x ^^^ rotr32 22 x

def bsig1 (x : Nat) : Nat := rotr32 6 x ^^^ rotr32 11 x ^^^ rotr32 25 x

def ssig0 (x : Nat) : Nat := rotr32 7 x ^^^ rotr32 18 x ^^^ shr32 3 x

def ssig1 (x : Nat) : Nat := rotr32 17 x ^^^ rotr32 19 x ^^^ shr32 10 x

def chf (x y z : Nat) : Nat := (x &&& y) ^^^ ((x ^^^ 4294967295) &&& z)

def majf (x y z : Nat) : Nat := (x &&& y) ^^^ (x &&& z) ^^^ (y &&& z)

def shaK : List Nat :=
  [1116352408, 1899447441, 3049323471, 3921009573, 961987163,
   1508970993, 2453635748, 2870763221, 3624381080, 310598401,
   607225278, 1426881987, 1925078388, 2162078206, 2614888103,
   3248222580, 3835390401, 4022224774, 264347078, 604807628,
   770255983, 1249150122, 1555081692, 1996064986, 2554220882,
   2821834349, 2952996808, 3210313671, 3336571891, 3584528711,
   113926993, 338241895, 666307205, 773529912, 1294757372,
   1396182291, 1695183700, 1986661051, 2177026350, 2456956037,
   2730485921, 2820302411, 3259730800, 3345764771, 3516065817,
   3600352804, 4094571909, 275423344, 430227734, 506948616,
   659060556, 883997877, 958139571, 1322822218, 1537002063,
   1747873779, 1955562222, 2024104815, 2227730452, 2361852424,
   2428436474, 2756734187, 3204031479, 3329325298]

def shaH0 : List Nat :=
  [1779033703, 3144134277, 1013904242, 2773480762,
   1359893119, 2600822924, 528734635, 1541459225]

def be64 (n : Nat) : List Nat :=
  [n / 2 ^ 56 % 256, n / 2 ^ 48 % 256, n / 2 ^ 40 % 256, n / 2 ^ 32 % 256,
   n / 2 ^ 24 % 256, n / 2 ^ 16 % 256, n / 2 ^ 8 % 256, n % 256]

def be32 (n : Nat) : List Nat :=
  [n / 2 ^ 24 % 256, n / 2 ^ 16 % 256, n / 2 ^ 8 % 256, n % 256]

/-- SHA-256 padding of a byte message. -/
def padMsg (msg : List Nat) : List Nat :=
  msg ++ [0x80] ++ List.replicate ((119 - msg.length % 64) % 64) 0 ++ be64 (8 * msg.length)

def blocks64Go : Nat → List Nat → List (List Nat)
  | 0, _ => []
  | _, [] => []
  | fuel + 1, b :: rest => ((b :: rest).take 64) :: blocks64Go fuel ((b :: rest).drop 64)

def blocks64 (l : List Nat) : List (List Nat) := blocks64Go l.length l

def toWords : List Nat → List Nat
  | b0 :: b1 :: b2 :: b3 :: rest => (((b0 * 256 + b1) * 256 + b2) * 256 + b3) :: toWords rest
  | _ => []

def scheduleGo : List Nat → Nat → List Nat
  | w, 0 => w
  | w, n + 1 =>
    scheduleGo
      (w ++ [w32 (ssig1 (w.getD (w.length - 2) 0) + w.getD (w.length - 7) 0
        + ssig0 (w.getD (w.length - 15) 0) + w.getD (w.length - 16) 0)]) n

def schedule (w16 : List Nat) : List Nat := scheduleGo w16 48

def shaRound (st : List Nat) (kt wt : Nat) : List Nat :=
  match st with
  | [a, b, c, d, e, f, g, h] =>
    let t1 := w32 (h + bsig1 e + chf e f g + kt + wt)
    let t2 := w32 (bsig0 a + majf a b c)
    [w32 (t1 + t2), a, b, c, w32 (d + t1), e, f, g]
  | _ => st

def compressBlock (h : List Nat) (block : List Nat) : List Nat :=
  let st := (List.zip shaK (schedule (toWords block))).foldl
    (fun s p => shaRound s p.1 p.2) h
  List.zipWith (fun a b => w32 (a + b)) h st

def sha256Bytes (msg : List Nat) : List Nat :=
  (((blocks64 (padMsg msg)).foldl compressBlock shaH0).map be32).flatten

def hexDigitChar (n : Nat) : Char :=
  if n < 10 then Char.ofNat (48 + n) else Char.ofNat (87 + n)

def byteHex (b : Nat) : Str := [hexDigitChar (b / 16), hexDigitChar (b % 16)]

def sha256Hex (msg : List Nat) : Str := ((sha256Bytes msg).map byteHex).flatten

/-- UTF-8 encoding of one scalar value (`str.encode("utf8")`). -/
def utf8EncodeChar (c : Char) : List Nat :=
  let n := c.toNat
  if n < 128 then [n]
  else if n < 2048 then [192 + n / 64, 128 + n % 64]
  else if n < 65536 then [224 + n / 4096, 128 + n / 64 % 64, 128 + n % 64]
  else [240 + n / 262144, 128 + n / 4096 % 64, 128 + n / 64 % 64, 128 + n % 64]

def utf8Encode (s : Str) : List Nat := (s.map utf8EncodeChar).flatten

/-- `hashlib.sha256(chunk_source.encode("utf8")).hexdigest()`
(indexer.py line 119). -/
def chunkIdOf (source : Str) : Str := sha256Hex (utf8Encode source)

/-- The chunk id computed for a captured definition node. -/
def nodeChunkId (n : DefNode) : Str := chunkIdOf n.source

/-- A method definition whose first declared parameter is `self`. -/
def selfMethodNode : DefNode :=
  ⟨("def method(self, x): pass").data, ("method").data,
   [.punct, .identifier (("self").data), .punct, .identifier (("x").data), .punct]⟩

/-- A plain two-parameter function definition. -/
def addNode : DefNode :=
  ⟨("def add(a, b):\n    return a + b").data, ("add").data,
   [.punct, .identifier (("a").data), .punct, .identifier (("b").data), .punct]⟩

/-- Same source as `addNode` under a different name. -/
def addAliasNode : DefNode :=
  ⟨("def add(a, b):\n    return a + b").data, ("add_alias").data, []⟩

/-! ### Assembler bridge (assembler_bridge.py) -/

/-- Decimal rendering of a natural number (Python `str(...)` / f-string
interpolation of ints). -/
def natToStr (n : Nat) : Str := (toString n).data

/-- Python's whitespace class `\s` (ASCII members). -/
def isSpaceChar (c : Char) : Bool :=
  c = ' ' || c = '\t' || c = '\n' || c = '\r' || c = '\x0b' || c = '\x0c'

/-- Python `str.strip()`. -/
def stripStr (s : Str) : Str :=
  ((s.dropWhile isSpaceChar).reverse.dropWhile isSpaceChar).reverse

/-- Python `str.rstrip()`. -/
def rstripStr (s : Str) : Str := (s.reverse.dropWhile isSpaceChar).reverse

/-- Python `str.split('\n')`. -/
def splitOnNl (s : Str) : List Str :=
  s.foldr
    (fun c acc =>
      match acc with
      | [] => if c = '\n' then [[], []] else [[c]]
      | l :: ls => if c = '\n' then [] :: l :: ls else (c :: l) :: ls)
    [[]]

/-- Python `line.split('=', 1)` when `'=' in line`: the text before the
first `=` and the text after it. -/
def splitOnceEq : Str → Option (Str × Str)
  | [] => none
  | c :: rest =>
    if c = '=' then some ([], rest)
    else (splitOnceEq rest).map (fun p => (c :: p.1, p.2))

def isIdentStart (c : Char) : Bool := c.isAlpha || c = '_'

def isIdentChar (c : Char) : Bool := c.isAlphanum || c = '_'

/-- Python `str.isidentifier()` (ASCII approximation). -/
def pyIsIdentifier : Str → Bool
  | [] => false
  | c :: rest => isIdentStart c && rest.all isIdentChar

/-- `'\n'.join(...)` and friends. -/
def joinWith (sep : Str) : List Str → Str
  | [] => []
  | [l] => l
  | l :: m :: rest => l ++ sep ++ joinWith sep (m :: rest)

/-- The structured result `{"reasoning": ..., "code": ..., "filename": ...}`. -/
structure AssemblyResult where
  reasoning : Str
  code : Str
  filename : Str
deriving DecidableEq

/-- The apostrophe character (used inside generated code strings). -/
def sq : Char := Char.ofNat 39

/-- The literal appended print statement of the deterministic assembler. -/
def printLineDet : Str :=
  ("print(f").data ++ [sq] ++ ("Result: {result}").data ++ [sq] ++ (")").data

/-- The tail appended by the completeness rule:
`code.rstrip() + "\nprint(f'Result: {result}')"`. -/
def printTail : Str := ("\n").data ++ printLineDet

/-- `build_deterministic_code`'s empty-chunks result (lines 63-68). -/
def detEmptyResult : AssemblyResult :=
  ⟨("ERROR: No matching chunks found. Cannot proceed.").data,
   ("# Error: Insufficient data for assembly").data, ("output.py").data⟩

/-- `raise RuntimeError('Insufficient data: No matching chunks found')`. -/
def raiseCodeStr : Str :=
  ("raise RuntimeError(").data ++ [sq]
    ++ ("Insufficient data: No matching chunks found").data ++ [sq] ++ (")").data

/-- `generate_glue_code`'s empty-chunks result (lines 159-164). -/
def insufficientDataResult : AssemblyResult :=
  ⟨("ERROR: Set intersection returned empty. No matching code chunks.").data,
   raiseCodeStr, ("output.py").data⟩

/-- `if params and params[0] == "self": params = params[1:]`
(assembler_bridge.py lines 80-82). -/
def stripSelf : List Str → List Str
  | [] => []
  | p :: rest => if p = ("self").data then rest else p :: rest

/-- One entry of `function_info`: func name and its self-stripped params. -/
structure FuncInfo where
  name : Str
  params : List Str
deriving DecidableEq

def funcInfoOf (c : Chunk) : FuncInfo := ⟨c.func_name, stripSelf c.signature.params⟩

/-- Insertion-ordered `imports` dict update with per-file dedup of
function names (`build_deterministic_code` lines 84-87). -/
def addImportDedup : List (Str × List Str) → Str → Str → List (Str × List Str)
  | [], f, fn => [(f, [fn])]
  | (g, fns) :: rest, f, fn =>
    if g = f then (g, if fn ∈ fns then fns else fns ++ [fn]) :: rest
    else (g, fns) :: addImportDedup rest f fn

/-- Insertion-ordered `imports` dict update without dedup
(`generate_glue_code` lines 167-173). -/
def addImportAppend : List (Str × List Str) → Str → Str → List (Str × List Str)
  | [], f, fn => [(f, [fn])]
  | (g, fns) :: rest, f, fn =>
    if g = f then (g, fns ++ [fn]) :: rest
    else (g, fns) :: addImportAppend rest f fn

def importsDet (chunks : List Chunk) : List (Str × List Str) :=
  chunks.foldl (fun acc c => addImportDedup acc c.filename c.func_name) []

def importsGen (chunks : List Chunk) : List (Str × List Str) :=
  chunks.foldl (fun acc c => addImportAppend acc c.filename c.func_name) []

/-- `"\n".join(f"from {f} import {', '.join(funcs)}" ...)`. -/
def importBlockOf (imps : List (Str × List Str)) : Str :=
  joinWith (("\n").data)
    (imps.map fun p => ("from ").data ++ p.1 ++ (" import ").data ++ joinWith ((", ").data) p.2)

def importBlockDet (chunks : List Chunk) : Str := importBlockOf (importsDet chunks)

def importBlockGen (chunks : List Chunk) : Str := importBlockOf (importsGen chunks)

/-- The `for j in range(param_count)` argument-building loop of
`build_deterministic_code` (lines 114-124): the first Nat is the number
of remaining positions, the second the current positional index `j`,
the third the current `number_idx`.  Returns the argument list and the
final `number_idx`. -/
def buildArgsGo (rv : Option Str) (numbers : List Str) : Nat → Nat → Nat → List Str × Nat
  | 0, _, idx => ([], idx)
  | rem + 1, j, idx =>
    match rv, j with
    | some r, 0 =>
      let pr := buildArgsGo rv numbers rem 1 idx
      (r :: pr.1, pr.2)
    | _, _ =>
      if idx < numbers.length then
        let pr := buildArgsGo rv numbers rem (j + 1) (idx + 1)
        (numbers.getD idx [] :: pr.1, pr.2)
      else
        let pr := buildArgsGo rv numbers rem (j + 1) idx
        (natToStr (10 + j) :: pr.1, pr.2)

def buildArgs (rv : Option Str) (numbers : List Str) (k idx : Nat) : List Str × Nat :=
  buildArgsGo rv numbers k 0 idx

/-- Modelled from the claim wording (refinement side): arguments are
filled left-to-right consuming the integer pool in order; once the pool
is exhausted the literal `10 + j` is used at positional index `j`. -/
def fillArgsSpec (numbers : List Str) : Nat → Nat → Nat → List Str
  | _, _, 0 => []
  | idx, j, k + 1 =>
    if idx < numbers.length
    then numbers.getD idx [] :: fillArgsSpec numbers (idx + 1) (j + 1) k
    else natToStr (10 + j) :: fillArgsSpec numbers idx (j + 1) k

/-- The per-chunk step loop of `build_deterministic_code` (lines
107-134): emits a comment plus a bare call for 0-arity functions, or a
`result = name(args)` binding otherwise; threads the result variable and
the `number_idx`. -/
def detLoop (numbers : List Str) : List (Nat × FuncInfo) → Option Str → Nat → List Str × Option Str
  | [], rv, _ => ([], rv)
  | (i, f) :: rest, rv, idx =>
    let k := f.params.length
    let comment := ("# Step ").data ++ natToStr (i + 1) ++ (": Call ").data ++ f.name
      ++ (" (").data ++ natToStr k ++ (" params)").data
    if k = 0 then
      let pr := detLoop numbers rest rv idx
      (comment :: (f.name ++ ("()").data) :: pr.1, pr.2)
    else
      let ar := buildArgs rv numbers k idx
      let callLine := ("result = ").data ++ f.name ++ ("(").data
        ++ joinWith ((", ").data) ar.1 ++ (")").data
      let pr := detLoop numbers rest (some (("result").data)) ar.2
      (comment :: callLine :: pr.1, pr.2)

/-- `build_deterministic_code(chunks, query)` (lines 57-145): the
zero-hallucination deterministic fallback. -/
def build_deterministic_code (chunks : List Chunk) (query : Str) : AssemblyResult :=
  if chunks.isEmpty then detEmptyResult
  else
    let infos := chunks.map funcInfoOf
    let numbers := runsBy Char.isDigit query
    let pr := detLoop numbers infos.enum none 0
    let codeLines := [importBlockDet chunks, []] ++ pr.1
      ++ (match pr.2 with
          | some _ => [[], printLineDet]
          | none => [])
    ⟨("Deterministic assembly using ").data ++ natToStr chunks.length
       ++ (" chunks with signature-aware calls: ").data
       ++ joinWith ((", ").data) (infos.map FuncInfo.name),
     joinWith (("\n").data) codeLines, ("output.py").data⟩

/-! #### `clean_code` (lines 48-54): the three `re.sub` passes -/

/-- Scanner for `re.sub(r'^```(?:python|py)?\s*\n?', '', code, MULTILINE)`:
at each line start, a fence opening plus optional language tag plus the
maximal following whitespace run is removed; scanning resumes after the
removed text (fuel = remaining length, consumed strictly each step). -/
def subOpenFenceGo : Nat → Bool → Str → Str
  | 0, _, s => s
  | _, _, [] => []
  | fuel + 1, atStart, c :: rest =>
    if atStart && ("```").data.isPrefixOf (c :: rest) then
      let r1 := (c :: rest).drop 3
      let r2 := if ("python").data.isPrefixOf r1 then r1.drop 6
        else if ("py").data.isPrefixOf r1 then r1.drop 2 else r1
      let ws := r2.takeWhile isSpaceChar
      subOpenFenceGo fuel (ws.getLast? == some '\n') (r2.dropWhile isSpaceChar)
    else c :: subOpenFenceGo fuel (c == '\n') rest

def subOpenFence (s : Str) : Str := subOpenFenceGo s.length true s

/-- Index of the last occurrence of `c` in `l`, if any. -/
def lastIdxOf (c : Char) (l : Str) : Option Nat :=
  match l.reverse.findIdx? (fun x => x == c) with
  | some i => some (l.length - 1 - i)
  | none => none

/-- For `re.sub(r'\n?```\s*$', '', code, MULTILINE)`: given the text
after the three backticks, the number of further characters the
(backtracking) `\s*$` consumes, or none when the pattern cannot match
here: `$` matches at end of string or before a newline, so the greedy
`\s*` backs up to the last newline of the whitespace run. -/
def fenceTailLen (s : Str) : Option Nat :=
  let run := s.takeWhile isSpaceChar
  if run.length = s.length then some s.length
  else lastIdxOf '\n' run

def subCloseFenceGo : Nat → Str → Str
  | 0, s => s
  | _, [] => []
  | fuel + 1, c :: rest =>
    if c = '\n' && ("```").data.isPrefixOf rest then
      match fenceTailLen (rest.drop 3) with
      | some t => subCloseFenceGo fuel (rest.drop (3 + t))
      | none => c :: subCloseFenceGo fuel rest
    else if ("```").data.isPrefixOf (c :: rest) then
      match fenceTailLen ((c :: rest).drop 3) with
      | some t => subCloseFenceGo fuel ((c :: rest).drop (3 + t))
      | none => c :: subCloseFenceGo fuel rest
    else c :: subCloseFenceGo fuel rest

def subCloseFence (s : Str) : Str := subCloseFenceGo s.length s

/-- `re.sub(r'^from output import.*\n?', '', code, MULTILINE)`. -/
def subSelfImportGo : Nat → Bool → Str → Str
  | 0, _, s => s
  | _, _, [] => []
  | fuel + 1, atStart, c :: rest =>
    if atStart && ("from output import").data.isPrefixOf (c :: rest) then
      let r := (c :: rest).dropWhile (fun x => !(x == '\n'))
      match r with
      | '\n' :: t => subSelfImportGo fuel true t
      | _ => subSelfImportGo fuel true r
    else c :: subSelfImportGo fuel (c == '\n') rest

def subSelfImport (s : Str) : Str := subSelfImportGo s.length true s

/-- `clean_code` (assembler_bridge.py lines 48-54). -/
def clean_code (code : Str) : Str :=
  stripStr (subSelfImport (subCloseFence (subOpenFence code)))

/-! #### Validator chain (lines 216-270) -/

/-- Import injection: `if import_block not in code: code = import_block
+ "\n\n" + code`. -/
def injectImports (ib code : Str) : Str :=
  if containsSub ib code then code else ib ++ ("\n\n").data ++ code

/-- The sentinel names of the use-before-define rule. -/
def sentinels : List Str :=
  [("result").data, ("output").data, ("value").data, ("total").data]

/-- The line scan of the use-before-define validator (lines 235-253):
returns true when some assignment line's right-hand side mentions a
sentinel name not yet defined on a left-hand side. -/
def ubdGo : List Str → List Str → Bool
  | _, [] => false
  | defined, l :: rest =>
    let line := stripStr l
    if line.contains '=' && !(("#").data.isPrefixOf line)
        && !(("def ").data.isPrefixOf line) then
      if containsSub (("==").data) line || containsSub (("!=").data) line
          || containsSub (("<=").data) line || containsSub ((">=").data) line then
        ubdGo defined rest
      else
        match splitOnceEq line with
        | some pr =>
          if sentinels.any (fun v => containsSub v (stripStr pr.2) && !(defined.contains v))
          then true
          else ubdGo (if pyIsIdentifier (stripStr pr.1)
            then stripStr pr.1 :: defined else defined) rest
        | none => ubdGo defined rest
    else ubdGo defined rest

def ubdTrips (code : Str) : Bool := ubdGo [] (splitOnNl code)

/-- Completeness probe `'print(' in code`. -/
def hasPrint (code : Str) : Bool := containsSub (("print(").data) code

/-- Completeness probe `'result =' in code or 'result=' in code`. -/
def hasResultBind (code : Str) : Bool :=
  containsSub (("result =").data) code || containsSub (("result=").data) code

/-- The code as it stands when the validators inspect it: cleaned model
code with the required import block injected (lines 216-220). -/
def processedCode (chunks : List Chunk) (rawCode : Str) : Str :=
  injectImports (importBlockGen chunks) (clean_code rawCode)

/-- The validation pipeline applied to a successfully parsed model
response (lines 216-270): clean, inject imports, then function-usage,
syntax (external oracle), use-before-define and completeness checks,
each failing to the deterministic fallback; finally a print is appended
when the code binds result without printing. -/
def validateModelCode (syntaxOk : Str → Bool) (chunks : List Chunk) (query : Str)
    (reasoning : Option Str) (rawCode : Str) : AssemblyResult :=
  if !((chunks.map Chunk.func_name).any fun fn => containsSub fn (processedCode chunks rawCode))
  then build_deterministic_code chunks query
  else if !(syntaxOk (processedCode chunks rawCode)) then build_deterministic_code chunks query
  else if ubdTrips (processedCode chunks rawCode) then build_deterministic_code chunks query
  else if !(hasPrint (processedCode chunks rawCode))
      && !(hasResultBind (processedCode chunks rawCode))
  then build_deterministic_code chunks query
  else
    ⟨reasoning.getD (("LLM assembly").data),
     if hasResultBind (processedCode chunks rawCode)
         && !(hasPrint (processedCode chunks rawCode))
     then rstripStr (processedCode chunks rawCode) ++ printTail
     else processedCode chunks rawCode,
     ("output.py").data⟩

/-- The outcome of the external model invocation and JSON extraction,
up to line 216 of `generate_glue_code`: the model may be unavailable,
`generate` may raise, the brace regex may not match, `json.loads` may
fail, or a dict with optional reasoning/code/filename fields is
obtained. -/
inductive ModelOutcome where
  | unavailable
  | generationError (msg : Str)
  | noJsonMatch
  | jsonDecodeError
  | parsed (reasoning code filename : Option Str)

/-- `generate_glue_code(chunks, query)` (lines 148-277), parametric in
the external syntax oracle (CPython `compile`) and the model outcome. -/
def generate_glue_code (syntaxOk : Str → Bool) (outcome : ModelOutcome)
    (chunks : List Chunk) (query : Str) : AssemblyResult :=
  if chunks.isEmpty then insufficientDataResult
  else
    match outcome with
    | .parsed r c _ => validateModelCode syntaxOk chunks query r (c.getD [])
    | _ => build_deterministic_code chunks query

/-- The `__main__` stdin wire protocol (lines 280-295). -/
def jsonErrorResult (msg : Str) : AssemblyResult :=
  ⟨("JSON Parse Error: ").data ++ msg, ("# Error parsing input").data, ("output.py").data⟩

/-- Input on stdin: empty (no output at all), undecodable JSON, or a
request object (missing keys defaulting to `[]` and `""`). -/
inductive WireInput where
  | emptyInput
  | badJson (msg : Str)
  | request (chunks : List Chunk) (query : Str)

def mainOutput (syntaxOk : Str → Bool) (outcome : ModelOutcome) :
    WireInput → Option AssemblyResult
  | .emptyInput => none
  | .badJson m => some (jsonErrorResult m)
  | .request chunks query => some (generate_glue_code syntaxOk outcome chunks query)

/-- A program all of whose lines are blank or comments (performs nothing
and in particular raises nothing when executed). -/
def isCommentOnly (code : Str) : Bool :=
  (splitOnNl code).all fun l => (stripStr l).isEmpty || ("#").data.isPrefixOf (stripStr l)

/-! #### Concrete data for the scenario claims -/

def fooArgChunk : Chunk :=
  ⟨("def foo(x):\n    return x").data, ("utils").data, ("foo").data, ⟨[("x").data], none⟩⟩

def barArgChunk : Chunk :=
  ⟨("def bar(y):\n    return y").data, ("utils").data, ("bar").data, ⟨[("y").data], none⟩⟩

def fooNoArgChunk : Chunk :=
  ⟨("def foo():\n    return 0").data, ("utils").data, ("foo").data, ⟨[], none⟩⟩

def doubleChunk : Chunk :=
  ⟨("def double(x):\n    return x * 2").data, ("utils").data, ("double").data,
   ⟨[("x").data], none⟩⟩

def chainQuery : Str := ("run foo then bar with 7").data

/-- The deterministic output the claim describes for the two-function
arity-1 chain. -/
def chainExpectedCode : Str :=
  ("from utils import foo, bar\n\n# Step 1: Call foo (1 params)\nresult = foo(7)\n# Step 2: Call bar (1 params)\nresult = bar(result)\n\n").data
    ++ printLineDet

/-- The model code of the use-before-define scenario:
`result = double(result)\nprint(result)`. -/
def ubdScenarioCode : Str := ("result = double(result)\nprint(result)").data

/-- Modelled from the spec's validator-chain description: a returned
code passed the five validator rules — it arose from a candidate that
contains the import block, mentions a retrieved function name, passes
the external syntax check and the use-before-define scan, and prints or
binds the result variable (with the print appended in the latter case). -/
def passedChain (syntaxOk : Str → Bool) (ib : Str) (fns : List Str) (final : Str) : Prop :=
  ∃ c0, containsSub ib c0 = true
    ∧ fns.any (fun fn => containsSub fn c0) = true
    ∧ syntaxOk c0 = true
    ∧ ubdTrips c0 = false
    ∧ ((hasPrint c0 = true ∧ final = c0)
        ∨ (hasPrint c0 = false ∧ hasResultBind c0 = true ∧ final = rstripStr c0 ++ printTail))

/-! ## Theorems -/

theorem matchesAll_eq_chunkAccepted (toks : List Str) (name src : Str) :
    chunkAccepted (toks.map lowerStr) name src = matchesAll toks name src := by
  unfold chunkAccepted matchesAll
  rw [List.all_map]
  rfl

/-- C1: `IntersectionEngine.search` computes the salient token set as the
case-folded word-character runs of the query with tokens of length ≤ 3
dropped, returns null when that set is empty or when no entry qualifies,
and otherwise returns exactly the chunks, in index iteration order, for
which every salient token occurs case-insensitively in the entry's
func_name or source (so no rejected chunk contains all salient tokens). -/
theorem c1_search_intersection_spec (index : List (Str × IndexEntry)) (q : Str) :
    search index q = searchSpec index q := by
  have h2 : (salientTokenSet q).isEmpty = (targetTokens q).isEmpty := by
    unfold salientTokenSet
    cases targetTokens q <;> rfl
  have h3 : ∀ p : Str × IndexEntry,
      chunkAccepted (salientTokenSet q) p.1 (entrySource p.2)
        = matchesAll (targetTokens q) p.1 (entrySource p.2) :=
    fun p => matchesAll_eq_chunkAccepted (targetTokens q) p.1 (entrySource p.2)
  simp only [search, searchSpec, h2, h3]

/-- Raw data for one index entry: key, source, filename, signature. -/
abbrev RawEntry := Str × (Str × Str × Sig)

def mkLegacy (e : RawEntry) : Str × IndexEntry := (e.1, .legacy e.2.1)

def mkStructured (e : RawEntry) : Str × IndexEntry :=
  (e.1, .structured (some e.2.1) (some e.2.2.1) (some e.2.2.2))

/-- The field change forced by loading an entry in legacy form: filename
becomes "unknown", signature becomes empty; source and func_name kept. -/
def legacyView (c : Chunk) : Chunk := ⟨c.source, ("unknown").data, c.func_name, ⟨[], none⟩⟩

/-- C9: loading an index entry in legacy form (bare source string) and
retrieving it yields a chunk identical to the structured form except in
exactly two fields: filename becomes "unknown" and signature becomes
empty; source and func_name are preserved unchanged — uniformly over
whole indices and queries. -/
theorem c9_legacy_lossy_fields (entries : List RawEntry) (q : Str) :
    search (entries.map mkLegacy) q
      = (search (entries.map mkStructured) q).map (List.map legacyView) := by
  unfold search
  cases hT : (targetTokens q).isEmpty
  · simp only [hT, if_false, Bool.false_eq_true]
    rw [List.filterMap_map, List.filterMap_map]
    have hfun : (List.filterMap
        ((fun p => if matchesAll (targetTokens q) p.1 (entrySource p.2)
            then some (chunkOfEntry p.1 p.2) else none) ∘ mkLegacy) entries)
        = List.map legacyView (List.filterMap
        ((fun p => if matchesAll (targetTokens q) p.1 (entrySource p.2)
            then some (chunkOfEntry p.1 p.2) else none) ∘ mkStructured) entries) := by
      rw [List.map_filterMap]
      apply List.filterMap_congr
      intro e _
      simp only [Function.comp_apply, mkLegacy, mkStructured]
      have hs : entrySource (.legacy e.2.1) = entrySource
          (.structured (some e.2.1) (some e.2.2.1) (some e.2.2.2)) := rfl
      rw [hs]
      cases matchesAll (targetTokens q) e.1
        (entrySource (.structured (some e.2.1) (some e.2.2.1) (some e.2.2.2)))
      · rfl
      · rfl
    rw [hfun]
    cases hE : (List.filterMap
        ((fun p => if matchesAll (targetTokens q) p.1 (entrySource p.2)
            then some (chunkOfEntry p.1 p.2) else none) ∘ mkStructured) entries) with
    | nil => rfl
    | cons a t => rfl
  · simp [hT]

/-- Sanity check of the SHA-256 embedding against the standard test
vector for the message "abc". -/
theorem sha256_vector_abc :
    sha256Hex (utf8Encode (("abc").data))
      = ("ba7816bf8f01cfea414140de5dae2223b00361a396177a9cb410ff61f20015ad").data := by
  decide

/-- C4 counterexample: the entry stored in the index for a concrete
definition node carries only source, filename and signature — no
chunk_id key is among the stored keys, so the produced chunk does not
carry its chunk_id. -/
theorem c4_chunk_id_not_stored_counterexample :
    ¬ (("chunk_id").data ∈ storedEntryKeys)
      ∧ indexEntryOfNode (("game_lib").data) addNode
        = ⟨("def add(a, b):\n    return a + b").data, ("game_lib").data,
           ⟨[("a").data, ("b").data], none⟩⟩ := by
  constructor
  · decide
  · rfl

/-- C4 (amended): at index time a chunk_id equal to the SHA-256 hex
digest of the UTF-8-encoded source is computed for every captured
definition — so any two definitions with identical source get the same
chunk_id — but it is not stored on the produced index entry; the
computed id agrees with `hashlib` on a concrete source. -/
theorem c4_chunk_id_amended :
    (∀ n : DefNode, nodeChunkId n = sha256Hex (utf8Encode n.source))
      ∧ (∀ n₁ n₂ : DefNode, n₁.source = n₂.source → nodeChunkId n₁ = nodeChunkId n₂)
      ∧ nodeChunkId addNode
        = ("8f75a68646c879fd0cff5c02708c010fb1c01d67ef9930d4e419106feb7897aa").data := by
  refine ⟨fun n => rfl, fun n₁ n₂ h => ?_, by decide⟩
  unfold nodeChunkId chunkIdOf
  rw [h]

theorem c4_chunk_id_amended_witness :
    nodeChunkId addNode = nodeChunkId addAliasNode :=
  c4_chunk_id_amended.2.1 addNode addAliasNode rfl

/-- C3 counterexample: for a method whose first declared parameter is
`self`, the signature stored in the index keeps the leading `self`
(stripping only happens downstream in the deterministic assembler), so
the stored params do not begin at the first non-self parameter. -/
theorem c3_self_not_stripped_counterexample :
    (indexEntryOfNode (("game_lib").data) selfMethodNode).signature.params
        = [("self").data, ("x").data]
      ∧ (indexEntryOfNode (("game_lib").data) selfMethodNode).signature.params
        ≠ [("x").data] := by
  constructor
  · rfl
  · decide

theorem isEmpty_false_of_ne {α : Type} {l : List α} (h : l ≠ []) : l.isEmpty = false := by
  cases l with
  | nil => exact absurd rfl h
  | cons a t => rfl

theorem containsSub_of_infix {p h : Str} (hp : p <:+: h) : containsSub p h = true :=
  decide_eq_true hp

theorem infix_of_containsSub {p h : Str} (hc : containsSub p h = true) : p <:+: h :=
  of_decide_eq_true hc

/-- The injected code always contains the import block. -/
theorem containsSub_injectImports (ib code : Str) :
    containsSub ib (injectImports ib code) = true := by
  unfold injectImports
  cases hc : containsSub ib code
  · simp only [hc, Bool.false_eq_true, if_false]
    exact containsSub_of_infix (List.IsPrefix.isInfix (by
      rw [List.append_assoc]
      exact List.prefix_append ib (("\n\n").data ++ code)))
  · simp [hc]

/-- C3 (amended): `parse_file` stores the parameter names in declaration
order with no `self` stripping; the leading `self` is instead dropped
downstream by the deterministic assembler when it builds `function_info`. -/
theorem c3_params_order_amended :
    (∀ names : List Str, extractParams (names.map ParamChild.identifier) = names)
  ∧ (∀ file n, (indexEntryOfNode file n).signature.params = extractParams n.paramChildren)
  ∧ (∀ ps : List Str, stripSelf ((("self").data) :: ps) = ps)
  ∧ (∀ p ps, p ≠ ("self").data → stripSelf (p :: ps) = p :: ps)
  ∧ (∀ c : Chunk, (funcInfoOf c).params = stripSelf c.signature.params) := by
  refine ⟨?_, fun file n => rfl, fun ps => by simp [stripSelf],
    fun p ps hp => by simp [stripSelf, hp], fun c => rfl⟩
  intro names
  induction names with
  | nil => rfl
  | cons n ns ih =>
      simp only [List.map_cons, extractParams, List.filterMap_cons, paramName]
      rw [← extractParams, ih]

theorem c3_params_order_amended_witness :
    stripSelf [("x").data, ("y").data] = [("x").data, ("y").data] :=
  c3_params_order_amended.2.2.2.1 (("x").data) [("y").data] (by decide)

/-- C5 counterexample: invoking the deterministic assembler with an
empty chunk list yields the comment `# Error: Insufficient data for
assembly` as code — a comment-only program containing no raise, which
performs nothing (and in particular raises no runtime error) when
executed. -/
theorem c5_det_empty_counterexample :
    (build_deterministic_code [] (("make user").data)).code
        = ("# Error: Insufficient data for assembly").data
  ∧ isCommentOnly (build_deterministic_code [] (("make user").data)).code = true
  ∧ containsSub (("raise").data)
      (build_deterministic_code [] (("make user").data)).code = false := by
  refine ⟨rfl, by decide, by decide⟩

/-- C5 (amended): with an empty chunk list the deterministic assembler
returns a structured error result (not an exception) whose code is a
comment placeholder that performs nothing when executed; the structured
error whose code raises a RuntimeError is instead returned by the
constrained assembler `generate_glue_code` on its empty-chunks path. -/
theorem c5_empty_chunks_amended (q : Str) (syntaxOk : Str → Bool) (outcome : ModelOutcome) :
    build_deterministic_code [] q = detEmptyResult
  ∧ isCommentOnly detEmptyResult.code = true
  ∧ containsSub (("raise").data) detEmptyResult.code = false
  ∧ generate_glue_code syntaxOk outcome [] q = insufficientDataResult
  ∧ ("raise RuntimeError").data.isPrefixOf insufficientDataResult.code = true := by
  refine ⟨rfl, by decide, by decide, ?_, by decide⟩
  unfold generate_glue_code
  rfl

theorem buildArgsGo_none (numbers : List Str) :
    ∀ (rem j idx : Nat), (buildArgsGo none numbers rem j idx).1 = fillArgsSpec numbers idx j rem := by
  intro rem
  induction rem with
  | zero => intro j idx; rfl
  | succ n ih =>
      intro j idx
      cases j with
      | zero =>
          by_cases h : idx < numbers.length
          · simp only [buildArgsGo, fillArgsSpec, if_pos h]
            rw [ih]
          · simp only [buildArgsGo, fillArgsSpec, if_neg h]
            rw [ih]
      | succ m =>
          by_cases h : idx < numbers.length
          · simp only [buildArgsGo, fillArgsSpec, if_pos h]
            rw [ih]
          · simp only [buildArgsGo, fillArgsSpec, if_neg h]
            rw [ih]

theorem buildArgsGo_some_pos (r : Str) (numbers : List Str) :
    ∀ (rem j idx : Nat),
      (buildArgsGo (some r) numbers rem (j + 1) idx).1 = fillArgsSpec numbers idx (j + 1) rem := by
  intro rem
  induction rem with
  | zero => intro j idx; rfl
  | succ n ih =>
      intro j idx
      by_cases h : idx < numbers.length
      · simp only [buildArgsGo, fillArgsSpec, if_pos h]
        rw [ih]
      · simp only [buildArgsGo, fillArgsSpec, if_neg h]
        rw [ih]

/-- C6: deterministic assembly fills each call's arguments left-to-right
— the first argument of a call after a result-binding call reuses the
result variable, the remaining positions consume the query's integer
literals in order, and `10 + j` is used at position `j` once the pool is
exhausted; in particular for the two arity-1 chunks foo and bar from
utils with query "run foo then bar with 7" the output begins
`from utils import foo, bar`, binds `result = foo(7)` then
`result = bar(result)`, and ends with a print of `result`. -/
theorem c6_det_argument_filling :
    (∀ (numbers : List Str) (k idx : Nat),
        (buildArgs none numbers k idx).1 = fillArgsSpec numbers idx 0 k)
  ∧ (∀ (r : Str) (numbers : List Str) (k idx : Nat),
        (buildArgs (some r) numbers (k + 1) idx).1 = r :: fillArgsSpec numbers idx 1 k)
  ∧ build_deterministic_code [fooArgChunk, barArgChunk] chainQuery
      = ⟨("Deterministic assembly using 2 chunks with signature-aware calls: foo, bar").data,
         chainExpectedCode, ("output.py").data⟩
  ∧ ("from utils import foo, bar").data.isPrefixOf chainExpectedCode = true
  ∧ containsSub
      (("result = foo(7)\n# Step 2: Call bar (1 params)\nresult = bar(result)").data)
      chainExpectedCode = true
  ∧ printLineDet <:+ chainExpectedCode := by
  refine ⟨fun numbers k idx => buildArgsGo_none numbers k 0 idx, ?_, by decide, by decide,
    by decide, ?_⟩
  · intro r numbers k idx
    show (buildArgsGo (some r) numbers (k + 1) 0 idx).1 = r :: fillArgsSpec numbers idx 1 k
    simp only [buildArgsGo]
    rw [buildArgsGo_some_pos r numbers k 0 idx]
  · exact ⟨("from utils import foo, bar\n\n# Step 1: Call foo (1 params)\nresult = foo(7)\n# Step 2: Call bar (1 params)\nresult = bar(result)\n\n").data, rfl⟩

/-- On the parsed-model path, a tripping use-before-define scan forces
the deterministic fallback (whatever the earlier checks did). -/
theorem validate_fallback_of_ubd (syntaxOk : Str → Bool) (chunks : List Chunk) (q : Str)
    (r : Option Str) (raw : Str) (hU : ubdTrips (processedCode chunks raw) = true) :
    validateModelCode syntaxOk chunks q r raw = build_deterministic_code chunks q := by
  unfold validateModelCode
  cases hA : (chunks.map Chunk.func_name).any (fun fn => containsSub fn (processedCode chunks raw))
  · simp [hA]
  · cases hS : syntaxOk (processedCode chunks raw)
    · simp [hA, hS]
    · simp [hA, hS, hU]

/-- C7: whenever the use-before-define line scan over the cleaned,
import-injected model code finds an assignment whose right-hand side
mentions a sentinel name (result, output, value, total) not yet defined
on a left-hand side, the constrained assembler returns the deterministic
fallback instead of the model's code; in particular the model code
`result = double(result)\nprint(result)` with the single matching chunk
`double` trips the rule. -/
theorem c7_use_before_define_fallback :
    (∀ (syntaxOk : Str → Bool) (chunks : List Chunk) (q : Str) (r c f : Option Str),
        chunks ≠ [] →
        ubdTrips (processedCode chunks (c.getD [])) = true →
        generate_glue_code syntaxOk (.parsed r c f) chunks q
          = build_deterministic_code chunks q)
  ∧ ubdTrips (processedCode [doubleChunk] ubdScenarioCode) = true
  ∧ (∀ syntaxOk : Str → Bool,
        generate_glue_code syntaxOk (.parsed none (some ubdScenarioCode) none)
            [doubleChunk] (("double the value 5").data)
          = build_deterministic_code [doubleChunk] (("double the value 5").data)) := by
  have hmain : ∀ (syntaxOk : Str → Bool) (chunks : List Chunk) (q : Str) (r c f : Option Str),
      chunks ≠ [] →
      ubdTrips (processedCode chunks (c.getD [])) = true →
      generate_glue_code syntaxOk (.parsed r c f) chunks q
        = build_deterministic_code chunks q := by
    intro syntaxOk chunks q r c f hne hU
    unfold generate_glue_code
    simp only [isEmpty_false_of_ne hne, Bool.false_eq_true, if_false]
    exact validate_fallback_of_ubd syntaxOk chunks q r (c.getD []) hU
  refine ⟨hmain, by decide, ?_⟩
  intro syntaxOk
  exact hmain syntaxOk [doubleChunk] (("double the value 5").data) none (some ubdScenarioCode)
    none (by decide) (by decide)

theorem c7_use_before_define_fallback_witness :
    generate_glue_code (fun _ => true) (.parsed none (some ubdScenarioCode) none)
        [doubleChunk] (("double the value 5").data)
      = build_deterministic_code [doubleChunk] (("double the value 5").data) :=
  c7_use_before_define_fallback.1 (fun _ => true) [doubleChunk] (("double the value 5").data)
    none (some ubdScenarioCode) none (by decide) (by decide)

theorem containsSub_processedCode (chunks : List Chunk) (raw : Str) :
    containsSub (importBlockGen chunks) (processedCode chunks raw) = true :=
  containsSub_injectImports (importBlockGen chunks) (clean_code raw)

/-- C2: when the model is unavailable or its invocation fails the
constrained assembler silently falls back to the deterministic
assembler, and for every non-empty chunk list and query the returned
result either is the deterministic-fallback output or its code passed
the five validator rules (containing the import block, mentioning a
retrieved func_name, passing the syntax oracle and the
use-before-define scan, and printing or binding the result variable,
with a print appended in the latter case). -/
theorem c2_model_fallback_grounding (syntaxOk : Str → Bool) (outcome : ModelOutcome)
    (chunks : List Chunk) (q : Str) (h : chunks ≠ []) :
    (generate_glue_code syntaxOk .unavailable chunks q = build_deterministic_code chunks q)
  ∧ (∀ m, generate_glue_code syntaxOk (.generationError m) chunks q
      = build_deterministic_code chunks q)
  ∧ (generate_glue_code syntaxOk outcome chunks q = build_deterministic_code chunks q
      ∨ passedChain syntaxOk (importBlockGen chunks) (chunks.map Chunk.func_name)
          (generate_glue_code syntaxOk outcome chunks q).code) := by
  have hne := isEmpty_false_of_ne h
  refine ⟨by simp [generate_glue_code, hne], fun m => by simp [generate_glue_code, hne], ?_⟩
  cases outcome with
  | unavailable => exact Or.inl (by simp [generate_glue_code, hne])
  | generationError m => exact Or.inl (by simp [generate_glue_code, hne])
  | noJsonMatch => exact Or.inl (by simp [generate_glue_code, hne])
  | jsonDecodeError => exact Or.inl (by simp [generate_glue_code, hne])
  | parsed r c f =>
      have hg : generate_glue_code syntaxOk (.parsed r c f) chunks q
          = validateModelCode syntaxOk chunks q r (c.getD []) := by
        unfold generate_glue_code
        simp [hne]
      rw [hg]
      cases hA : (chunks.map Chunk.func_name).any
          (fun fn => containsSub fn (processedCode chunks (c.getD [])))
      · exact Or.inl (by unfold validateModelCode; simp [hA])
      · cases hS : syntaxOk (processedCode chunks (c.getD []))
        · exact Or.inl (by unfold validateModelCode; simp [hA, hS])
        · cases hU : ubdTrips (processedCode chunks (c.getD []))
          · cases hP : hasPrint (processedCode chunks (c.getD []))
            · cases hR : hasResultBind (processedCode chunks (c.getD []))
              · exact Or.inl (by unfold validateModelCode; simp [hA, hS, hU, hP, hR])
              · refine Or.inr ?_
                have hres : validateModelCode syntaxOk chunks q r (c.getD [])
                    = ⟨r.getD (("LLM assembly").data),
                       rstripStr (processedCode chunks (c.getD [])) ++ printTail,
                       ("output.py").data⟩ := by
                  unfold validateModelCode
                  simp [hA, hS, hU, hP, hR]
                rw [hres]
                exact ⟨processedCode chunks (c.getD []),
                  containsSub_processedCode chunks (c.getD []), hA, hS, hU,
                  Or.inr ⟨hP, hR, rfl⟩⟩
            · refine Or.inr ?_
              have hres : validateModelCode syntaxOk chunks q r (c.getD [])
                  = ⟨r.getD (("LLM assembly").data), processedCode chunks (c.getD []),
                     ("output.py").data⟩ := by
                unfold validateModelCode
                simp [hA, hS, hU, hP]
              rw [hres]
              exact ⟨processedCode chunks (c.getD []),
                containsSub_processedCode chunks (c.getD []), hA, hS, hU,
                Or.inl ⟨hP, rfl⟩⟩
          · exact Or.inl (validate_fallback_of_ubd syntaxOk chunks q r (c.getD []) hU)

theorem c2_model_fallback_grounding_witness :
    generate_glue_code (fun _ => true) .unavailable [fooArgChunk] chainQuery
      = build_deterministic_code [fooArgChunk] chainQuery :=
  (c2_model_fallback_grounding (fun _ => true) .unavailable [fooArgChunk] chainQuery
    (by decide)).1

theorem any_enumFrom {α : Type} (q : α → Bool) :
    ∀ (l : List α) (n : Nat), (List.enumFrom n l).any (fun p => q p.2) = l.any q := by
  intro l
  induction l with
  | nil => intro n; rfl
  | cons a t ih => intro n; simp [List.enumFrom, List.any_cons, ih]

/-- The result variable after the deterministic step loop: set exactly
when some remaining function has a nonzero parameter count (or it was
set already). -/
theorem detLoop_rvOut (numbers : List Str) :
    ∀ (l : List (Nat × FuncInfo)) (rv : Option Str) (idx : Nat),
      (detLoop numbers l rv idx).2
        = if l.any (fun p => !(p.2.params.length == 0)) then some (("result").data) else rv := by
  intro l
  induction l with
  | nil => intro rv idx; simp [detLoop]
  | cons hd rest ih =>
      obtain ⟨i, f⟩ := hd
      intro rv idx
      by_cases hk : f.params.length = 0
      · simp only [detLoop, if_pos hk, List.any_cons, hk, beq_self_eq_true,
          Bool.not_true, Bool.false_or]
        exact ih rv idx
      · simp only [detLoop, if_neg hk, List.any_cons]
        rw [ih]
        have hb : (f.params.length == 0) = false := by
          simpa using hk
        simp [hb]

theorem joinWith_last_suffix (sep : Str) :
    ∀ (xs : List Str) (y : Str), y <:+ joinWith sep (xs ++ [y]) := by
  intro xs
  induction xs with
  | nil => intro y; exact List.suffix_refl y
  | cons x xs ih =>
      intro y
      cases xs with
      | nil => exact ⟨x ++ sep, rfl⟩
      | cons z zs =>
          obtain ⟨t, ht⟩ := ih y
          refine ⟨(x ++ sep) ++ t, ?_⟩
          show (x ++ sep) ++ t ++ y = joinWith sep ((x :: z :: zs) ++ [y])
          rw [List.append_assoc (x ++ sep) t y, ht]
          rfl

/-- Whenever some chunk has a nonzero self-stripped arity, the
deterministic assembler's code contains a print call. -/
theorem buildDet_hasPrint (chunks : List Chunk) (q : Str)
    (h : chunks.any (fun c => !((stripSelf c.signature.params).length == 0)) = true) :
    hasPrint (build_deterministic_code chunks q).code = true := by
  have hne : chunks ≠ [] := by
    intro he
    rw [he] at h
    simp at h
  unfold build_deterministic_code
  simp only [isEmpty_false_of_ne hne, Bool.false_eq_true, if_false]
  have hmap : ∀ (l : List Chunk),
      (l.map funcInfoOf).any (fun f => !(f.params.length == 0))
        = l.any (fun c => !((stripSelf c.signature.params).length == 0)) := by
    intro l
    induction l with
    | nil => rfl
    | cons a t ih => simp only [List.map_cons, List.any_cons, ih]; rfl
  have hany : ((chunks.map funcInfoOf).enum).any (fun p => !(p.2.params.length == 0)) = true := by
    show (List.enumFrom 0 (chunks.map funcInfoOf)).any (fun p => !(p.2.params.length == 0)) = true
    rw [any_enumFrom (fun f => !(f.params.length == 0)) (chunks.map funcInfoOf) 0]
    rw [hmap]
    exact h
  have hrv : (detLoop (runsBy Char.isDigit q) ((chunks.map funcInfoOf).enum) none 0).2
      = some (("result").data) := by
    rw [detLoop_rvOut, hany]
    rfl
  rw [hrv]
  have hsplit :
      [importBlockDet chunks, ([] : Str)]
          ++ (detLoop (runsBy Char.isDigit q) ((chunks.map funcInfoOf).enum) none 0).1
          ++ [([] : Str), printLineDet]
        = ([importBlockDet chunks, ([] : Str)]
          ++ (detLoop (runsBy Char.isDigit q) ((chunks.map funcInfoOf).enum) none 0).1
          ++ [([] : Str)]) ++ [printLineDet] := by
    simp
  rw [hsplit]
  exact containsSub_of_infix
    ((infix_of_containsSub (by decide : containsSub (("print(").data) printLineDet = true)).trans
      (joinWith_last_suffix (("\n").data) _ printLineDet).isInfix)

/-- C8 counterexample: with a single zero-arity chunk and the model
unavailable, the assembler returns the deterministic fallback whose code
neither prints nor raises — so not every returned code prints or raises. -/
theorem c8_completeness_counterexample :
    generate_glue_code (fun _ => true) .unavailable [fooNoArgChunk]
        (("invoke foo function").data)
      = build_deterministic_code [fooNoArgChunk] (("invoke foo function").data)
  ∧ hasPrint (build_deterministic_code [fooNoArgChunk]
        (("invoke foo function").data)).code = false
  ∧ containsSub (("raise").data)
      (build_deterministic_code [fooNoArgChunk] (("invoke foo function").data)).code
        = false
  ∧ (build_deterministic_code [fooNoArgChunk] (("invoke foo function").data)).code
      = ("from utils import foo\n\n# Step 1: Call foo (0 params)\nfoo()").data := by
  refine ⟨by decide, by decide, by decide, by decide⟩

/-- C8 (amended): the empty-chunks path raises; on the model path every
returned code either is the deterministic fallback or contains a print
(the completeness rule diverts to the fallback when the code neither
prints nor binds the result variable, and appends a print when it binds
the result without printing); the deterministic fallback itself prints
whenever some chunk has nonzero arity — but with only zero-arity chunks
its output neither prints nor raises. -/
theorem c8_completeness_amended :
    (∀ (syntaxOk : Str → Bool) (o : ModelOutcome) (q : Str),
        ("raise").data.isPrefixOf (generate_glue_code syntaxOk o [] q).code = true)
  ∧ (∀ (syntaxOk : Str → Bool) (chunks : List Chunk) (q : Str) (r c f : Option Str),
        chunks ≠ [] →
        generate_glue_code syntaxOk (.parsed r c f) chunks q
            = build_deterministic_code chunks q
          ∨ hasPrint (generate_glue_code syntaxOk (.parsed r c f) chunks q).code = true)
  ∧ (∀ (chunks : List Chunk) (q : Str),
        chunks.any (fun c => !((stripSelf c.signature.params).length == 0)) = true →
        hasPrint (build_deterministic_code chunks q).code = true)
  ∧ (∀ (syntaxOk : Str → Bool) (chunks : List Chunk) (q : Str) (r c f : Option Str),
        chunks ≠ [] →
        hasPrint (processedCode chunks (c.getD [])) = false →
        hasResultBind (processedCode chunks (c.getD [])) = false →
        generate_glue_code syntaxOk (.parsed r c f) chunks q
          = build_deterministic_code chunks q)
  ∧ (∀ (syntaxOk : Str → Bool) (chunks : List Chunk) (q : Str) (r c f : Option Str),
        chunks ≠ [] →
        (chunks.map Chunk.func_name).any
            (fun fn => containsSub fn (processedCode chunks (c.getD []))) = true →
        syntaxOk (processedCode chunks (c.getD [])) = true →
        ubdTrips (processedCode chunks (c.getD [])) = false →
        hasResultBind (processedCode chunks (c.getD [])) = true →
        hasPrint (processedCode chunks (c.getD [])) = false →
        generate_glue_code syntaxOk (.parsed r c f) chunks q
          = ⟨r.getD (("LLM assembly").data),
             rstripStr (processedCode chunks (c.getD [])) ++ printTail,
             ("output.py").data⟩) := by
  refine ⟨?_, ?_, buildDet_hasPrint, ?_, ?_⟩
  · intro syntaxOk o q
    have hg : generate_glue_code syntaxOk o [] q = insufficientDataResult := by
      unfold generate_glue_code
      rfl
    rw [hg]
    decide
  · intro syntaxOk chunks q r c f hne
    have hg : generate_glue_code syntaxOk (.parsed r c f) chunks q
        = validateModelCode syntaxOk chunks q r (c.getD []) := by
      unfold generate_glue_code
      simp [isEmpty_false_of_ne hne]
    rw [hg]
    cases hA : (chunks.map Chunk.func_name).any
        (fun fn => containsSub fn (processedCode chunks (c.getD [])))
    · exact Or.inl (by unfold validateModelCode; simp [hA])
    · cases hS : syntaxOk (processedCode chunks (c.getD []))
      · exact Or.inl (by unfold validateModelCode; simp [hA, hS])
      · cases hU : ubdTrips (processedCode chunks (c.getD []))
        · cases hP : hasPrint (processedCode chunks (c.getD []))
          · cases hR : hasResultBind (processedCode chunks (c.getD []))
            · exact Or.inl (by unfold validateModelCode; simp [hA, hS, hU, hP, hR])
            · refine Or.inr ?_
              have hres : validateModelCode syntaxOk chunks q r (c.getD [])
                  = ⟨r.getD (("LLM assembly").data),
                     rstripStr (processedCode chunks (c.getD [])) ++ printTail,
                     ("output.py").data⟩ := by
                unfold validateModelCode
                simp [hA, hS, hU, hP, hR]
              rw [hres]
              exact containsSub_of_infix
                ((infix_of_containsSub
                    (by decide : containsSub (("print(").data) printTail = true)).trans
                  (List.suffix_append _ printTail).isInfix)
          · refine Or.inr ?_
            have hres : validateModelCode syntaxOk chunks q r (c.getD [])
                = ⟨r.getD (("LLM assembly").data), processedCode chunks (c.getD []),
                   ("output.py").data⟩ := by
              unfold validateModelCode
              simp [hA, hS, hU, hP]
            rw [hres]
            exact hP
        · exact Or.inl (validate_fallback_of_ubd syntaxOk chunks q r (c.getD []) hU)
  · intro syntaxOk chunks q r c f hne hP hR
    have hg : generate_glue_code syntaxOk (.parsed r c f) chunks q
        = validateModelCode syntaxOk chunks q r (c.getD []) := by
      unfold generate_glue_code
      simp [isEmpty_false_of_ne hne]
    rw [hg]
    cases hA : (chunks.map Chunk.func_name).any
        (fun fn => containsSub fn (processedCode chunks (c.getD [])))
    · unfold validateModelCode; simp [hA]
    · cases hS : syntaxOk (processedCode chunks (c.getD []))
      · unfold validateModelCode; simp [hA, hS]
      · cases hU : ubdTrips (processedCode chunks (c.getD []))
        · unfold validateModelCode; simp [hA, hS, hU, hP, hR]
        · exact validate_fallback_of_ubd syntaxOk chunks q r (c.getD []) hU
  · intro syntaxOk chunks q r c f hne hA hS hU hR hP
    have hg : generate_glue_code syntaxOk (.parsed r c f) chunks q
        = validateModelCode syntaxOk chunks q r (c.getD []) := by
      unfold generate_glue_code
      simp [isEmpty_false_of_ne hne]
    rw [hg]
    unfold validateModelCode
    simp [hA, hS, hU, hP, hR]

theorem c8_completeness_amended_witness :
    hasPrint (build_deterministic_code [fooArgChunk] chainQuery).code = true :=
  c8_completeness_amended.2.2.1 [fooArgChunk] chainQuery (by decide)

theorem buildDet_filename (chunks : List Chunk) (q : Str) :
    (build_deterministic_code chunks q).filename = ("output.py").data := by
  unfold build_deterministic_code
  cases chunks.isEmpty
  · rfl
  · rfl

theorem genGlue_filename (syntaxOk : Str → Bool) (outcome : ModelOutcome)
    (chunks : List Chunk) (q : Str) :
    (generate_glue_code syntaxOk outcome chunks q).filename = ("output.py").data := by
  unfold generate_glue_code
  cases hE : chunks.isEmpty
  · simp only [Bool.false_eq_true, if_false]
    cases outcome with
    | unavailable => exact buildDet_filename chunks q
    | generationError m => exact buildDet_filename chunks q
    | noJsonMatch => exact buildDet_filename chunks q
    | jsonDecodeError => exact buildDet_filename chunks q
    | parsed r c f =>
        show (validateModelCode syntaxOk chunks q r (c.getD [])).filename = ("output.py").data
        unfold validateModelCode
        split
        · exact buildDet_filename chunks q
        · split
          · exact buildDet_filename chunks q
          · split
            · exact buildDet_filename chunks q
            · split
              · exact buildDet_filename chunks q
              · rfl
  · simp only [if_true]
    rfl

/-- C10: on every return path of the constrained assembler bridge —
empty chunks, model success, every validator fallback, model failure,
and the stdin wire-protocol parse-error path — the result's filename is
exactly "output.py", and any filename the model emits in its JSON
output is ignored. -/
theorem c10_filename_always_output (syntaxOk : Str → Bool) (outcome : ModelOutcome) :
    (∀ (inp : WireInput) (r : AssemblyResult),
        mainOutput syntaxOk outcome inp = some r → r.filename = ("output.py").data)
  ∧ (∀ (chunks : List Chunk) (q : Str) (re c f1 f2 : Option Str),
        generate_glue_code syntaxOk (.parsed re c f1) chunks q
          = generate_glue_code syntaxOk (.parsed re c f2) chunks q) := by
  constructor
  · intro inp r h
    cases inp with
    | emptyInput => exact Option.noConfusion h
    | badJson m =>
        have hr : jsonErrorResult m = r := Option.some.inj h
        rw [← hr]
        rfl
    | request chunks q =>
        have hr : generate_glue_code syntaxOk outcome chunks q = r := Option.some.inj h
        rw [← hr]
        exact genGlue_filename syntaxOk outcome chunks q
  · intro chunks q re c f1 f2
    rfl

theorem c10_filename_always_output_witness :
    (jsonErrorResult (("bad input").data)).filename = ("output.py").data :=
  (c10_filename_always_output (fun _ => true) .unavailable).1
    (.badJson (("bad input").data)) (jsonErrorResult (("bad input").data)) rfl

end AssemblyEngine
